import Mathlib

/-!
Verification of the lo-fi step-sequencer audio core (Scheduler.js,
AudioEngine.js, SoundGenerator.js) against its specification.

Times are modelled as exact rationals (the source uses JS numbers which it
manipulates only by +, *, /); callbacks are modelled by recording the emitted
events in a list, in invocation order; the JS interval timer is modelled by a
fuel parameter bounding how many iterations of the inner while-loop a single
scheduling pass may perform, together with hypotheses or lemmas showing the
loop in fact finished (final nextNoteTime reached the lookahead horizon).
Thrown JS exceptions are modelled by an explicit result type.
-/

namespace LofiSeq

/-- Events observable from the Scheduler: each iteration of the scheduling
loop first invokes onStep with the current step index, then onSchedule with
the current step index and the note time. -/
inductive Ev where
  | step (i : ℕ)
  | sched (i : ℕ) (t : ℚ)
  deriving DecidableEq, Repr

/-- State of a Scheduler instance (Scheduler.js constructor fields that the
algorithm reads or writes: tempo, isPlaying, currentStep, nextNoteTime, and
whether the repeating interval timer is armed, i.e. timerID is not null). -/
structure SchedulerState where
  tempo : ℚ
  isPlaying : Bool
  currentStep : ℕ
  nextNoteTime : ℚ
  timerOn : Bool
  deriving DecidableEq, Repr

/-- Source constant this.lookahead = 25.0 (ms), the coarse poll interval. -/
def lookahead : ℚ := 25

/-- Source constant this.scheduleAheadTime = 0.1 (seconds). -/
def scheduleAheadTime : ℚ := 1 / 10

/-- Source function calculateSixteenthNoteTime: (60.0 / bpm) / 4. -/
def calculateSixteenthNoteTime (bpm : ℚ) : ℚ :=
  (60 / bpm) / 4

/-- Scheduler constructor with the given initial tempo: not playing, step 0,
nextNoteTime 0.0, no timer armed. -/
def Scheduler.mk' (tempo : ℚ) : SchedulerState :=
  { tempo := tempo, isPlaying := false, currentStep := 0, nextNoteTime := 0,
    timerOn := false }

/-- Source method Scheduler.setTempo: this.tempo = newTempo. -/
def Scheduler.setTempo (newTempo : ℚ) (st : SchedulerState) : SchedulerState :=
  { st with tempo := newTempo }

/-- Source method Scheduler.nextNote: nextNoteTime += (60.0 / tempo) / 4 and
currentStep = (currentStep + 1) % 16. -/
def Scheduler.nextNote (st : SchedulerState) : SchedulerState :=
  { st with
    nextNoteTime := st.nextNoteTime + (60 / st.tempo) / 4,
    currentStep := (st.currentStep + 1) % 16 }

/-- Source method Scheduler.scheduler, the lookahead loop: while
nextNoteTime < audioContext.currentTime + scheduleAheadTime, invoke
onStep(currentStep), then onSchedule(currentStep, nextNoteTime), then
nextNote(). The parameter now is audioContext.currentTime, constant across
one pass; fuel bounds the number of iterations so the function is total. -/
def schedulerLoop : ℕ → ℚ → SchedulerState → List Ev × SchedulerState
  | 0, _, st => ([], st)
  | fuel + 1, now, st =>
    if st.nextNoteTime < now + scheduleAheadTime then
      let p := schedulerLoop fuel now (Scheduler.nextNote st)
      (Ev.step st.currentStep :: Ev.sched st.currentStep st.nextNoteTime :: p.1, p.2)
    else ([], st)

/-- Source method Scheduler.start: if isPlaying, return; else set isPlaying,
set nextNoteTime = audioContext.currentTime, run one scheduling pass, and arm
the repeating interval timer. -/
def Scheduler.start (fuel : ℕ) (now : ℚ) (st : SchedulerState) :
    List Ev × SchedulerState :=
  if st.isPlaying then ([], st)
  else
    let p := schedulerLoop fuel now
      { st with isPlaying := true, nextNoteTime := now }
    (p.1, { p.2 with timerOn := true })

/-- Source method Scheduler.stop: isPlaying = false; if the timer is armed,
cancel it and null the timer id. -/
def Scheduler.stop (st : SchedulerState) : SchedulerState :=
  { st with isPlaying := false, timerOn := false }

/-- Source method Scheduler.reset: currentStep = 0. -/
def Scheduler.reset (st : SchedulerState) : SchedulerState :=
  { st with currentStep := 0 }

/-- Source method Scheduler.destroy: this.stop(). -/
def Scheduler.destroy (st : SchedulerState) : SchedulerState :=
  Scheduler.stop st

/-- Per-iteration increment of nextNoteTime for a given state, as computed
inline in Scheduler.nextNote. -/
def stInc (st : SchedulerState) : ℚ :=
  (60 / st.tempo) / 4

/-- Canonical event list of a completed scheduling pass that emits n steps
from state st: for k = 0..n-1, an onStep event and then an onSchedule event
for step (currentStep + k) mod 16 at time nextNoteTime + k * stInc. -/
def canonicalEvents (st : SchedulerState) (n : ℕ) : List Ev :=
  (List.range n).flatMap fun k =>
    [Ev.step ((st.currentStep + k) % 16),
     Ev.sched ((st.currentStep + k) % 16) (st.nextNoteTime + k * stInc st)]

/-- State after n iterations of the scheduling loop from st: the step counter
advanced n times mod 16 and nextNoteTime advanced by n increments; all other
fields unchanged. -/
def advState (st : SchedulerState) (n : ℕ) : SchedulerState :=
  { st with
    currentStep := (st.currentStep + n) % 16,
    nextNoteTime := st.nextNoteTime + n * stInc st }

/-- The four instrument tracks of the sequencer. -/
inductive Voice where
  | kick
  | snare
  | hihat
  | chord
  deriving DecidableEq, Repr

/-- Pattern object: one ordered sequence of boolean step flags per track
(the application supplies arrays of length 16; array reads out of range give
a falsy value in JS, modelled by getD with default false). -/
structure Pattern where
  kick : List Bool
  snare : List Bool
  hihat : List Bool
  chord : List Bool
  deriving DecidableEq, Repr

/-- Track flags of a pattern for a given voice. -/
def Pattern.track (p : Pattern) : Voice → List Bool
  | Voice.kick => p.kick
  | Voice.snare => p.snare
  | Voice.hihat => p.hihat
  | Voice.chord => p.chord

/-- JS exceptions that the modelled code can throw. -/
inductive JSError where
  | typeError
  | notAllowedError
  deriving DecidableEq, Repr

/-- Result of a JS call: a returned value, or a thrown exception (for an
async function, a rejected promise). -/
inductive JSResult (α : Type) where
  | ok (a : α)
  | thrown (e : JSError)
  deriving DecidableEq, Repr

/-- Lifecycle states of the hardware AudioContext. -/
inductive CtxStatus where
  | running
  | suspended
  | closed
  deriving DecidableEq, Repr

/-- State of an AudioEngine instance (AudioEngine.js fields): the optional
hardware context, whether the master chain has been built (masterGain is not
null), tempo, isPlaying, currentStep, the optional Scheduler, and the
optional pattern. The master chain node parameters are fixed constants and
are not tracked beyond existence. -/
structure EngineState where
  context : Option CtxStatus
  masterGain : Bool
  tempo : ℚ
  isPlaying : Bool
  currentStep : ℕ
  scheduler : Option SchedulerState
  pattern : Option Pattern
  deriving DecidableEq, Repr

/-- AudioEngine constructor: everything null, tempo 85, not playing, step 0. -/
def AudioEngine.mk' : EngineState :=
  { context := none, masterGain := false, tempo := 85, isPlaying := false,
    currentStep := 0, scheduler := none, pattern := none }

/-- Host environment as seen by init: whether window.AudioContext (or the
webkit fallback) exists, the state a newly constructed context starts in,
and whether a resume() call would succeed. -/
structure Env where
  apiAvailable : Bool
  newCtxStatus : CtxStatus
  resumeOk : Bool

/-- Source method AudioEngine.init, an async function. If this.context is
null it evaluates new AudioContext(): when the API is missing this is a call
of undefined as a constructor, which throws a TypeError (the async function
rejects) and leaves this.context null. If the context is suspended it awaits
resume(), whose failure rejects. Then it builds the master chain once, and
constructs the Scheduler once with tempo, onStep and onSchedule bound to
this engine. On success it returns true. There is no try/catch anywhere in
init. -/
def AudioEngine.init (env : Env) (e : EngineState) : JSResult Bool × EngineState :=
  if e.context = none ∧ env.apiAvailable = false then
    (JSResult.thrown JSError.typeError, e)
  else
    let e1 := if e.context = none then { e with context := some env.newCtxStatus } else e
    if e1.context = some CtxStatus.suspended ∧ env.resumeOk = false then
      (JSResult.thrown JSError.notAllowedError, e1)
    else
      let e2 := if e1.context = some CtxStatus.suspended then
        { e1 with context := some CtxStatus.running } else e1
      let e3 := if e2.masterGain then e2 else { e2 with masterGain := true }
      let e4 := if e3.scheduler = none then
        { e3 with scheduler := some (Scheduler.mk' e3.tempo) } else e3
      (JSResult.ok true, e4)

/-- Source method AudioEngine.scheduleStepSounds: if this.pattern is null,
return; otherwise, for each of the four tracks in order kick, snare, hihat,
chord, if the track flag at the step is truthy, call that voice creator with
(this.context, time, this.masterGain). The observable behaviour is the list
of (voice, time) triggers, in invocation order. -/
def scheduleStepSounds (pattern : Option Pattern) (step : ℕ) (time : ℚ) :
    List (Voice × ℚ) :=
  match pattern with
  | none => []
  | some p =>
    (if p.kick.getD step false then [(Voice.kick, time)] else []) ++
    (if p.snare.getD step false then [(Voice.snare, time)] else []) ++
    (if p.hihat.getD step false then [(Voice.hihat, time)] else []) ++
    (if p.chord.getD step false then [(Voice.chord, time)] else [])

/-- One full 16-step scheduling run: the triggers of scheduleStepSounds at
steps 0..15, each step at its scheduled time, concatenated in step order. -/
def fullRun (pattern : Option Pattern) (times : ℕ → ℚ) : List (Voice × ℚ) :=
  (List.range 16).flatMap fun s => scheduleStepSounds pattern s (times s)

/-- Pattern with the kick track active exactly at steps 0, 4, 8, 12 and all
other flags inactive. -/
def demoKickPattern : Pattern :=
  { kick := [true, false, false, false, true, false, false, false,
             true, false, false, false, true, false, false, false],
    snare := List.replicate 16 false,
    hihat := List.replicate 16 false,
    chord := List.replicate 16 false }

/-- Source method AudioEngine.start: if this.scheduler or this.context is
null, return; otherwise set isPlaying and start the scheduler. -/
def AudioEngine.start (fuel : ℕ) (now : ℚ) (e : EngineState) :
    EngineState × List Ev :=
  match e.scheduler, e.context with
  | some sch, some _ =>
    let p := Scheduler.start fuel now sch
    ({ e with isPlaying := true, scheduler := some p.2 }, p.1)
  | _, _ => (e, [])

/-- Source method AudioEngine.stop: if this.scheduler is null, return;
otherwise clear isPlaying and stop the scheduler. -/
def AudioEngine.stop (e : EngineState) : EngineState :=
  match e.scheduler with
  | some sch => { e with isPlaying := false, scheduler := some (Scheduler.stop sch) }
  | none => e

/-- Source method AudioEngine.toggle: stop if playing, else start. -/
def AudioEngine.toggle (fuel : ℕ) (now : ℚ) (e : EngineState) :
    EngineState × List Ev :=
  if e.isPlaying then (AudioEngine.stop e, []) else AudioEngine.start fuel now e

/-- Source method AudioEngine.setTempo: record the tempo and forward it to
the scheduler when one exists. -/
def AudioEngine.setTempo (newTempo : ℚ) (e : EngineState) : EngineState :=
  let e1 := { e with tempo := newTempo }
  match e1.scheduler with
  | some sch => { e1 with scheduler := some (Scheduler.setTempo newTempo sch) }
  | none => e1

/-- Source method AudioEngine.setPattern: this.pattern = pattern. -/
def AudioEngine.setPattern (p : Pattern) (e : EngineState) : EngineState :=
  { e with pattern := some p }

/-- Source method AudioEngine.reset: this.currentStep = 0, and reset the
scheduler when one exists. -/
def AudioEngine.reset (e : EngineState) : EngineState :=
  let e1 := { e with currentStep := 0 }
  match e1.scheduler with
  | some sch => { e1 with scheduler := some (Scheduler.reset sch) }
  | none => e1

/-- Source method AudioEngine.destroy: this.stop(); if this.scheduler,
scheduler.destroy(); if this.context, context.close(). The close() call is
not awaited, so no rejection surfaces in destroy; its effect is that the
context ends up closed. -/
def AudioEngine.destroy (e : EngineState) : EngineState :=
  let e1 := AudioEngine.stop e
  let e2 := match e1.scheduler with
    | some sch => { e1 with scheduler := some (Scheduler.destroy sch) }
    | none => e1
  match e2.context with
  | some _ => { e2 with context := some CtxStatus.closed }
  | none => e2

/-- Observable Web Audio operations a voice creator performs on its nodes,
in source order; parameter automation values and times are exact rationals. -/
inductive AudioOp where
  | oscFreqSetValue (hz t : ℚ)
  | oscFreqExpRamp (hz t : ℚ)
  | oscFreqValue (hz : ℚ)
  | oscDetune (cents : ℚ)
  | gainSetValue (g t : ℚ)
  | gainExpRamp (g t : ℚ)
  | gainLinRamp (g t : ℚ)
  | filterHighpass (freq q : ℚ)
  | nodeConnect
  | oscStart (t : ℚ)
  | oscStop (t : ℚ)
  | noiseStart (t : ℚ)
  | noiseStop (t : ℚ)
  deriving DecidableEq, Repr

/-- Source function createKick(context, time, destination). The function
performs no availability checks and has no try/catch: if context is null or
closed-out, the very first call context.createOscillator() throws a
TypeError; if destination is null, oscGain.connect(destination) throws
before any sound is started. Otherwise the listed node operations run. -/
def createKick (ctxOk : Bool) (time : ℚ) (destOk : Bool) :
    JSResult (List AudioOp) :=
  if ctxOk = false then JSResult.thrown JSError.typeError
  else if destOk = false then JSResult.thrown JSError.typeError
  else JSResult.ok
    [AudioOp.oscFreqSetValue 150 time,
     AudioOp.oscFreqExpRamp 50 (time + 1/2),
     AudioOp.gainSetValue 1 time,
     AudioOp.gainExpRamp (1/100) (time + 1/2),
     AudioOp.nodeConnect, AudioOp.nodeConnect,
     AudioOp.oscStart time, AudioOp.oscStop (time + 1/2)]

/-- Source function createSnare(context, time, destination): a noise path
(highpass 1000 Hz, exponential decay over 0.2 s) plus a 180 Hz tone path
(exponential decay over 0.1 s). Same unguarded failure behaviour as
createKick: a null context or destination throws a TypeError. -/
def createSnare (ctxOk : Bool) (time : ℚ) (destOk : Bool) :
    JSResult (List AudioOp) :=
  if ctxOk = false then JSResult.thrown JSError.typeError
  else if destOk = false then JSResult.thrown JSError.typeError
  else JSResult.ok
    [AudioOp.filterHighpass 1000 1,
     AudioOp.gainSetValue 1 time,
     AudioOp.gainExpRamp (1/100) (time + 1/5),
     AudioOp.oscFreqValue 180,
     AudioOp.gainSetValue (7/10) time,
     AudioOp.gainExpRamp (1/100) (time + 1/10),
     AudioOp.nodeConnect, AudioOp.nodeConnect, AudioOp.nodeConnect,
     AudioOp.nodeConnect, AudioOp.nodeConnect,
     AudioOp.noiseStart time, AudioOp.noiseStop (time + 1/5),
     AudioOp.oscStart time, AudioOp.oscStop (time + 1/10)]

/-- Source function createHiHat(context, time, destination): a 0.05 s noise
burst through a highpass filter at 7000 Hz with Q 1, decaying from 0.6 to
0.01. Same unguarded failure behaviour as createKick. -/
def createHiHat (ctxOk : Bool) (time : ℚ) (destOk : Bool) :
    JSResult (List AudioOp) :=
  if ctxOk = false then JSResult.thrown JSError.typeError
  else if destOk = false then JSResult.thrown JSError.typeError
  else JSResult.ok
    [AudioOp.filterHighpass 7000 1,
     AudioOp.gainSetValue (3/5) time,
     AudioOp.gainExpRamp (1/100) (time + 1/20),
     AudioOp.nodeConnect, AudioOp.nodeConnect, AudioOp.nodeConnect,
     AudioOp.noiseStart time, AudioOp.noiseStop (time + 1/20)]

/-- Dm7 voicing frequencies used by createChord: 293.66, 349.23, 523.25 Hz. -/
def chordFrequencies : List ℚ := [29366/100, 34923/100, 52325/100]

/-- Source function createChord(context, time, destination): one oscillator
per chord frequency, each with a random detune (modelled by the detune
argument, indexed per oscillator) and a four-segment envelope, stopping at
time + 0.6. Same unguarded failure behaviour as createKick: a null context
throws at createOscillator, a null destination throws at the first connect
to the destination, before any oscillator is started. -/
def createChord (ctxOk : Bool) (time : ℚ) (destOk : Bool) (detune : ℕ → ℚ) :
    JSResult (List AudioOp) :=
  if ctxOk = false then JSResult.thrown JSError.typeError
  else if destOk = false then JSResult.thrown JSError.typeError
  else JSResult.ok
    ((List.range chordFrequencies.length).flatMap fun i =>
      [AudioOp.oscFreqValue (chordFrequencies.getD i 0),
       AudioOp.oscDetune (detune i),
       AudioOp.gainSetValue 0 time,
       AudioOp.gainLinRamp (15/100) (time + 1/20),
       AudioOp.gainLinRamp (1/10) (time + 1/10),
       AudioOp.gainSetValue (1/10) (time + 2/5),
       AudioOp.gainLinRamp 0 (time + 3/5),
       AudioOp.nodeConnect, AudioOp.nodeConnect,
       AudioOp.oscStart time, AudioOp.oscStop (time + 3/5)])

/-- Environment in which the hardware audio API is missing: neither
window.AudioContext nor window.webkitAudioContext exists. -/
def envNoAudio : Env :=
  { apiAvailable := false, newCtxStatus := CtxStatus.running, resumeOk := true }

/-- Helper predicate: the engine is in a stopped state (its own flag is
clear and its scheduler, when present, is stopped with no armed timer). -/
def engineStopped (e : EngineState) : Bool :=
  !e.isPlaying &&
    (match e.scheduler with
     | some s => !s.isPlaying && !s.timerOn
     | none => true)

/-- Helper predicate: the engine is in a playing state (its own flag is set
and its scheduler exists and is playing). -/
def enginePlaying (e : EngineState) : Bool :=
  e.isPlaying &&
    (match e.scheduler with
     | some s => s.isPlaying
     | none => false)

/-- Concrete engine that is initialized and currently playing. -/
def playingEngine : EngineState :=
  { context := some CtxStatus.running, masterGain := true, tempo := 85,
    isPlaying := true, currentStep := 0,
    scheduler := some { Scheduler.mk' 85 with isPlaying := true, timerOn := true },
    pattern := none }

lemma nextNote_currentStep_lt (st : SchedulerState) :
    (Scheduler.nextNote st).currentStep < 16 :=
  Nat.mod_lt _ (by norm_num)

lemma canonicalEvents_zero (st : SchedulerState) : canonicalEvents st 0 = [] := rfl

lemma canonicalEvents_succ (st : SchedulerState) (h16 : st.currentStep < 16)
    (n : ℕ) :
    canonicalEvents st (n + 1) =
      Ev.step st.currentStep :: Ev.sched st.currentStep st.nextNoteTime ::
        canonicalEvents (Scheduler.nextNote st) n := by
  unfold canonicalEvents
  rw [List.range_succ_eq_map]
  rw [List.flatMap_cons, List.flatMap_map]
  simp only [Nat.add_zero, Nat.mod_eq_of_lt h16, Nat.cast_zero, zero_mul,
    add_zero, List.cons_append, List.nil_append]
  congr 2
  apply congrArg
  funext k
  have hidx : (st.currentStep + Nat.succ k) % 16
      = ((Scheduler.nextNote st).currentStep + k) % 16 := by
    simp only [Scheduler.nextNote, Nat.mod_add_mod]
    omega
  have htime : st.nextNoteTime + (Nat.succ k : ℚ) * stInc st
      = (Scheduler.nextNote st).nextNoteTime
        + (k : ℚ) * stInc (Scheduler.nextNote st) := by
    simp only [Scheduler.nextNote, stInc]
    push_cast
    ring
  rw [hidx, htime]

lemma advState_zero (st : SchedulerState) (h16 : st.currentStep < 16) :
    advState st 0 = st := by
  cases st with
  | mk tempo isPlaying currentStep nextNoteTime timerOn =>
    simp only [advState, Nat.add_zero, Nat.cast_zero, zero_mul, add_zero]
    simp only at h16
    simp [Nat.mod_eq_of_lt h16]

lemma advState_succ (st : SchedulerState) (n : ℕ) :
    advState (Scheduler.nextNote st) n = advState st (n + 1) := by
  cases st with
  | mk tempo isPlaying currentStep nextNoteTime timerOn =>
    simp only [advState, Scheduler.nextNote, stInc, Nat.mod_add_mod,
      SchedulerState.mk.injEq, and_true, true_and]
    constructor
    · ring_nf
    · push_cast
      ring

lemma schedulerLoop_spec (fuel : ℕ) :
    ∀ (now : ℚ) (st : SchedulerState), st.currentStep < 16 →
    ∃ n, n ≤ fuel ∧
      schedulerLoop fuel now st = (canonicalEvents st n, advState st n) ∧
      (∀ k, k < n → st.nextNoteTime + k * stInc st < now + scheduleAheadTime) ∧
      (n < fuel → ¬ st.nextNoteTime + n * stInc st < now + scheduleAheadTime) := by
  induction fuel with
  | zero =>
    intro now st h16
    refine ⟨0, le_rfl, ?_, ?_, ?_⟩
    · simp [schedulerLoop, canonicalEvents_zero, advState_zero st h16]
    · intro k hk
      omega
    · intro h
      omega
  | succ fuel ih =>
    intro now st h16
    by_cases h : st.nextNoteTime < now + scheduleAheadTime
    · obtain ⟨n, hn, heq, hlt, hstop⟩ :=
        ih now (Scheduler.nextNote st) (nextNote_currentStep_lt st)
      refine ⟨n + 1, by omega, ?_, ?_, ?_⟩
      · show schedulerLoop (fuel + 1) now st = _
        simp only [schedulerLoop, if_pos h, heq]
        rw [canonicalEvents_succ st h16 n, advState_succ]
      · intro k hk
        match k with
        | 0 => simpa using h
        | j + 1 =>
          have hj := hlt j (by omega)
          have e : st.nextNoteTime + ((j + 1 : ℕ) : ℚ) * stInc st
              = (Scheduler.nextNote st).nextNoteTime
                + (j : ℚ) * stInc (Scheduler.nextNote st) := by
            simp only [Scheduler.nextNote, stInc]
            push_cast
            ring
          rw [e]
          exact hj
      · intro hf hcon
        apply hstop (by omega)
        have e : (Scheduler.nextNote st).nextNoteTime
            + (n : ℚ) * stInc (Scheduler.nextNote st)
            = st.nextNoteTime + ((n + 1 : ℕ) : ℚ) * stInc st := by
          simp only [Scheduler.nextNote, stInc]
          push_cast
          ring
        rw [e]
        exact hcon
    · refine ⟨0, by omega, ?_, ?_, ?_⟩
      · simp [schedulerLoop, if_neg h, canonicalEvents_zero, advState_zero st h16]
      · intro k hk
        omega
      · intro _
        simpa using h

/-- Claim C1: within one scheduling pass, each emitted step produces its
onStep event immediately before its onSchedule event (the canonicalEvents
list alternates them pairwise), the emitted step indices are the consecutive
values (currentStep + k) mod 16 for k below n with no skips and no
duplicates inside any window of 16 consecutive emissions, the resulting
state continues at step (currentStep + n) mod 16 so that consecutive passes
concatenate into one strictly increasing mod-16 stream, and the pass, once
its while-loop has run to completion (hdone), has emitted exactly the steps
whose nextNoteTime falls before currentTime + scheduleAheadTime, so a
delayed pass catches up on every skipped step exactly once, in order. -/
theorem scheduler_pass_emits_consecutive_steps (fuel : ℕ) (now : ℚ)
    (st : SchedulerState) (h16 : st.currentStep < 16) (htempo : 0 < st.tempo)
    (hdone : ¬ (schedulerLoop fuel now st).2.nextNoteTime
      < now + scheduleAheadTime) :
    ∃ n, schedulerLoop fuel now st = (canonicalEvents st n, advState st n) ∧
      ∀ k : ℕ, (st.nextNoteTime + k * stInc st < now + scheduleAheadTime
        ↔ k < n) := by
  obtain ⟨n, _, heq, hlt, _⟩ := schedulerLoop_spec fuel now st h16
  refine ⟨n, heq, fun k => ⟨?_, hlt k⟩⟩
  intro hk
  by_contra hkn
  push_neg at hkn
  have h60 : (0 : ℚ) < 60 / st.tempo := div_pos (by norm_num) htempo
  have hinc : 0 < stInc st := by
    unfold stInc
    exact div_pos h60 (by norm_num)
  have hfin : (schedulerLoop fuel now st).2.nextNoteTime
      = st.nextNoteTime + n * stInc st := by
    rw [heq]
    simp [advState]
  rw [hfin] at hdone
  push_neg at hdone
  have hmono : (n : ℚ) * stInc st ≤ (k : ℚ) * stInc st :=
    mul_le_mul_of_nonneg_right (by exact_mod_cast hkn) hinc.le
  linarith

/-- Witness for claim C1 at a concrete input: a fresh scheduler at tempo 120
polled at hardware time 0 with fuel 1 completes its pass after one step. -/
theorem scheduler_pass_emits_consecutive_steps_witness :
    ∃ n, schedulerLoop 1 0 (Scheduler.mk' 120)
      = (canonicalEvents (Scheduler.mk' 120) n, advState (Scheduler.mk' 120) n) ∧
      ∀ k : ℕ, ((Scheduler.mk' 120).nextNoteTime
        + k * stInc (Scheduler.mk' 120) < 0 + scheduleAheadTime ↔ k < n) :=
  scheduler_pass_emits_consecutive_steps 1 0 (Scheduler.mk' 120)
    (by norm_num [Scheduler.mk'])
    (by norm_num [Scheduler.mk'])
    (by norm_num [schedulerLoop, Scheduler.mk', Scheduler.nextNote,
      scheduleAheadTime])

lemma schedulerLoop_frame (fuel : ℕ) : ∀ (now : ℚ) (st : SchedulerState),
    (schedulerLoop fuel now st).2.isPlaying = st.isPlaying ∧
    (schedulerLoop fuel now st).2.timerOn = st.timerOn ∧
    (schedulerLoop fuel now st).2.tempo = st.tempo := by
  induction fuel with
  | zero =>
    intro now st
    exact ⟨rfl, rfl, rfl⟩
  | succ fuel ih =>
    intro now st
    by_cases h : st.nextNoteTime < now + scheduleAheadTime
    · simp only [schedulerLoop, if_pos h]
      exact ih now (Scheduler.nextNote st)
    · simp [schedulerLoop, if_neg h]

/-- Claim C3: for every BPM in the accepted range 60..180 the sixteenth-note
duration is exactly (60 / bpm) / 4 seconds, giving exactly 1/8 s at 120 BPM
and exactly 3/17 s (about 0.17647 s) at 85 BPM, and every step advance of
the Scheduler increases nextNoteTime by exactly this amount computed from
the tempo held at advance time. -/
theorem sixteenth_note_duration (bpm : ℚ) (_h1 : 60 ≤ bpm) (_h2 : bpm ≤ 180) :
    calculateSixteenthNoteTime bpm = (60 / bpm) / 4 ∧
    calculateSixteenthNoteTime 120 = 1 / 8 ∧
    calculateSixteenthNoteTime 85 = 3 / 17 ∧
    ∀ st : SchedulerState, (Scheduler.nextNote st).nextNoteTime
      = st.nextNoteTime + calculateSixteenthNoteTime st.tempo := by
  refine ⟨rfl, ?_, ?_, fun st => rfl⟩
  · norm_num [calculateSixteenthNoteTime]
  · norm_num [calculateSixteenthNoteTime]

/-- Witness for claim C3 at the concrete BPM 120. -/
theorem sixteenth_note_duration_witness :
    calculateSixteenthNoteTime 120 = 1 / 8 :=
  (sixteenth_note_duration 120 (by norm_num) (by norm_num)).2.1

/-- Claim C4: start on an idle scheduler turns on playback and the poll
timer, its event output is exactly one scheduling pass begun from
nextNoteTime reset to the current hardware-clock time (in particular the
first step is scheduled at the current time itself, so a stop followed
immediately by a start carries over no drift), start on a running scheduler
is an exact no-op, and stop on an idle scheduler is an exact no-op. -/
theorem start_stop_transitions (fuel : ℕ) (now : ℚ) (st : SchedulerState)
    (hidle : st.isPlaying = false) :
    (Scheduler.start fuel now st).2.isPlaying = true ∧
    (Scheduler.start fuel now st).2.timerOn = true ∧
    (Scheduler.start fuel now st).1
      = (schedulerLoop fuel now
          { st with isPlaying := true, nextNoteTime := now }).1 ∧
    (Scheduler.start (fuel + 1) now st).1.take 2
      = [Ev.step st.currentStep, Ev.sched st.currentStep now] ∧
    (∀ st2 : SchedulerState, st2.isPlaying = true →
      Scheduler.start fuel now st2 = ([], st2)) ∧
    (∀ st2 : SchedulerState, st2.isPlaying = false → st2.timerOn = false →
      Scheduler.stop st2 = st2) ∧
    ∀ st2 : SchedulerState,
      (Scheduler.start (fuel + 1) now (Scheduler.stop st2)).1.take 2
        = [Ev.step st2.currentStep, Ev.sched st2.currentStep now] := by
  have hcond : now < now + scheduleAheadTime := by
    norm_num [scheduleAheadTime]
  obtain ⟨hp, ht, _⟩ := schedulerLoop_frame fuel now
    { st with isPlaying := true, nextNoteTime := now }
  refine ⟨?_, ?_, ?_, ?_, ?_, ?_, ?_⟩
  · simp [Scheduler.start, hidle, hp]
  · simp [Scheduler.start, hidle]
  · simp [Scheduler.start, hidle]
  · simp [Scheduler.start, hidle, schedulerLoop, hcond]
  · intro st2 h2
    simp [Scheduler.start, h2]
  · intro st2 h2 h3
    cases st2
    simp_all [Scheduler.stop]
  · intro st2
    simp [Scheduler.start, Scheduler.stop, schedulerLoop, hcond]

/-- Witness for claim C4 on a freshly constructed idle scheduler. -/
theorem start_stop_transitions_witness :
    (Scheduler.start 1 0 (Scheduler.mk' 85)).2.isPlaying = true :=
  (start_stop_transitions 1 0 (Scheduler.mk' 85) rfl).1

/-- Claim C5: setTempo changes only the tempo field: nextNoteTime,
currentStep, the playing flag and the timer are untouched, and the next
step advance then uses the new tempo for its increment. -/
theorem setTempo_only_changes_tempo (newBPM : ℚ) (st : SchedulerState) :
    (Scheduler.setTempo newBPM st).tempo = newBPM ∧
    (Scheduler.setTempo newBPM st).nextNoteTime = st.nextNoteTime ∧
    (Scheduler.setTempo newBPM st).currentStep = st.currentStep ∧
    (Scheduler.setTempo newBPM st).isPlaying = st.isPlaying ∧
    (Scheduler.setTempo newBPM st).timerOn = st.timerOn ∧
    (Scheduler.nextNote (Scheduler.setTempo newBPM st)).nextNoteTime
      = st.nextNoteTime + calculateSixteenthNoteTime newBPM :=
  ⟨rfl, rfl, rfl, rfl, rfl, rfl⟩

/-- Claim C6: reset sets currentStep back to 0 and changes nothing else, at
the Scheduler level and at the AudioEngine level. -/
theorem reset_only_resets_step (st : SchedulerState) (e : EngineState) :
    (Scheduler.reset st).currentStep = 0 ∧
    (Scheduler.reset st).nextNoteTime = st.nextNoteTime ∧
    (Scheduler.reset st).isPlaying = st.isPlaying ∧
    (Scheduler.reset st).tempo = st.tempo ∧
    (Scheduler.reset st).timerOn = st.timerOn ∧
    (AudioEngine.reset e).currentStep = 0 ∧
    (AudioEngine.reset e).tempo = e.tempo ∧
    (AudioEngine.reset e).isPlaying = e.isPlaying ∧
    (AudioEngine.reset e).pattern = e.pattern ∧
    (AudioEngine.reset e).context = e.context ∧
    (AudioEngine.reset e).masterGain = e.masterGain ∧
    (AudioEngine.reset e).scheduler = e.scheduler.map Scheduler.reset := by
  refine ⟨rfl, rfl, rfl, rfl, rfl, ?_, ?_, ?_, ?_, ?_, ?_, ?_⟩ <;>
    cases e with
    | mk context masterGain tempo isPlaying currentStep scheduler pattern =>
      cases scheduler <;> simp [AudioEngine.reset]

/-- Claim C10: stop leaves currentStep, nextNoteTime and tempo unchanged and
only clears the playing flag and cancels the poll timer, so a subsequent
start resumes with the same step index as its first emitted step; only
reset returns the step position to 0. -/
theorem stop_preserves_position (st : SchedulerState) :
    (Scheduler.stop st).currentStep = st.currentStep ∧
    (Scheduler.stop st).nextNoteTime = st.nextNoteTime ∧
    (Scheduler.stop st).tempo = st.tempo ∧
    (Scheduler.stop st).isPlaying = false ∧
    (Scheduler.stop st).timerOn = false ∧
    (∀ (fuel : ℕ) (now : ℚ),
      (Scheduler.start (fuel + 1) now (Scheduler.stop st)).1.head?
        = some (Ev.step st.currentStep)) ∧
    (Scheduler.reset (Scheduler.stop st)).currentStep = 0 := by
  refine ⟨rfl, rfl, rfl, rfl, rfl, ?_, rfl⟩
  intro fuel now
  have hcond : now < now + scheduleAheadTime := by
    norm_num [scheduleAheadTime]
  simp [Scheduler.start, Scheduler.stop, schedulerLoop, hcond]

/-- Claim C2: scheduleStepSounds triggers exactly the voices whose pattern
flag at the step is active, each at the given scheduled time; with no
pattern set it is a no-op (and, being a total function here because the
source returns before any pattern access, it never throws); and a full
16-step run over the pattern with kick active at steps 0, 4, 8 and 12 and
everything else inactive triggers exactly the kick voice four times, at the
times of those four steps, and no other voice at all. -/
theorem scheduleStepSounds_triggers (p : Pattern) (step : ℕ) (time : ℚ)
    (times : ℕ → ℚ) :
    (∀ (v : Voice) (t : ℚ),
      (v, t) ∈ scheduleStepSounds (some p) step time
        ↔ ((p.track v).getD step false = true ∧ t = time)) ∧
    scheduleStepSounds none step time = [] ∧
    fullRun (some demoKickPattern) times
      = [(Voice.kick, times 0), (Voice.kick, times 4),
         (Voice.kick, times 8), (Voice.kick, times 12)] := by
  refine ⟨?_, rfl, ?_⟩
  · intro v t
    cases v <;>
      simp only [scheduleStepSounds, Pattern.track, List.mem_append] <;>
      split_ifs <;> simp_all
  · rfl

/-- Counterexample to claim C7: on a fresh engine in an environment with no
hardware audio API, init does not return a failure indicator; it throws a
TypeError (the async call rejects), because new AudioContext() is a call of
undefined as a constructor and init has no try/catch. -/
theorem init_throws_when_api_missing :
    AudioEngine.init envNoAudio AudioEngine.mk'
      = (JSResult.thrown JSError.typeError, AudioEngine.mk') := by
  rfl

/-- Claim C7 as amended: when the hardware audio API is missing, init
throws a TypeError (rejected promise) instead of returning a failure
indicator; the engine remains in its pre-initialized state, all playback
operations (start, stop, toggle) are no-ops in that state, and a later init
in an environment with the API present succeeds and returns true. -/
theorem init_failure_leaves_engine_preinit (env : Env) (e : EngineState)
    (fuel : ℕ) (now : ℚ)
    (hctx : e.context = none) (hsch : e.scheduler = none)
    (hapi : env.apiAvailable = false) :
    AudioEngine.init env e = (JSResult.thrown JSError.typeError, e) ∧
    AudioEngine.start fuel now e = (e, []) ∧
    AudioEngine.stop e = e ∧
    (e.isPlaying = false → AudioEngine.toggle fuel now e = (e, [])) ∧
    ∀ env2 : Env, env2.apiAvailable = true →
      env2.newCtxStatus = CtxStatus.running →
      (AudioEngine.init env2 e).1 = JSResult.ok true := by
  refine ⟨?_, ?_, ?_, ?_, ?_⟩
  · simp [AudioEngine.init, hctx, hapi]
  · simp [AudioEngine.start, hsch]
  · simp [AudioEngine.stop, hsch]
  · intro hp
    simp [AudioEngine.toggle, hp, AudioEngine.start, hsch]
  · intro env2 h1 h2
    by_cases hm : e.masterGain <;>
      simp [AudioEngine.init, hctx, hsch, h1, h2, hm]

/-- Witness for the amended claim C7 on a fresh engine under envNoAudio. -/
theorem init_failure_leaves_engine_preinit_witness :
    AudioEngine.init envNoAudio AudioEngine.mk'
      = (JSResult.thrown JSError.typeError, AudioEngine.mk') :=
  (init_failure_leaves_engine_preinit envNoAudio AudioEngine.mk' 0 0
    rfl rfl rfl).1

/-- Claim C8: destroy is idempotent (a second destroy changes nothing),
destroy on an engine that was never initialized changes nothing, stop on an
already stopped engine changes nothing, and start on an already playing
engine changes nothing and emits nothing; none of these can raise an error
(each operation is a total function of the state; the only externally risky
call, context.close() on an already closed context, is not awaited by the
source, so its rejection never surfaces in destroy). -/
theorem double_operations_idempotent (e eStop ePlay : EngineState)
    (fuel : ℕ) (now : ℚ)
    (h1 : engineStopped eStop = true) (h2 : enginePlaying ePlay = true) :
    AudioEngine.destroy (AudioEngine.destroy e) = AudioEngine.destroy e ∧
    (e.scheduler = none → e.context = none → AudioEngine.destroy e = e) ∧
    AudioEngine.stop eStop = eStop ∧
    AudioEngine.start fuel now ePlay = (ePlay, []) := by
  refine ⟨?_, ?_, ?_, ?_⟩
  · cases e with
    | mk context masterGain tempo isPlaying currentStep scheduler pattern =>
      cases scheduler <;> cases context <;>
        simp [AudioEngine.destroy, AudioEngine.stop, Scheduler.destroy,
          Scheduler.stop]
  · intro hs hc
    cases e with
    | mk context masterGain tempo isPlaying currentStep scheduler pattern =>
      simp_all [AudioEngine.destroy, AudioEngine.stop]
  · cases eStop with
    | mk context masterGain tempo isPlaying currentStep scheduler pattern =>
      cases scheduler with
      | none => simp [AudioEngine.stop]
      | some s =>
        cases s
        simp_all [AudioEngine.stop, Scheduler.stop, engineStopped]
  · cases ePlay with
    | mk context masterGain tempo isPlaying currentStep scheduler pattern =>
      cases scheduler with
      | none => simp_all [enginePlaying]
      | some s =>
        cases context <;>
          simp_all [AudioEngine.start, Scheduler.start, enginePlaying]

/-- Witness for claim C8 on concrete stopped and playing engines. -/
theorem double_operations_idempotent_witness :
    AudioEngine.destroy (AudioEngine.destroy AudioEngine.mk')
      = AudioEngine.destroy AudioEngine.mk' :=
  (double_operations_idempotent AudioEngine.mk' AudioEngine.mk' playingEngine
    0 0 (by decide) (by decide)).1

/-- Counterexample to claim C9: createKick with the clock source (context)
unavailable is not a no-op; it throws a TypeError to its caller, because the
first statement context.createOscillator() dereferences the missing context
and no voice creator contains a try/catch or an availability check. -/
theorem createKick_throws_when_context_unavailable :
    createKick false 0 true = JSResult.thrown JSError.typeError := rfl

/-- Claim C9 as amended: for each voice creator (kick, snare, hi-hat,
chord), if the clock source or the destination is unavailable, the call
throws a TypeError that propagates to the caller (there is no availability
check and no exception handling in the source), while with both available
the call returns its node operations normally. -/
theorem voice_trigger_throws_when_unavailable (time : ℚ) (detune : ℕ → ℚ) :
    createKick false time true = JSResult.thrown JSError.typeError ∧
    createKick true time false = JSResult.thrown JSError.typeError ∧
    createSnare false time true = JSResult.thrown JSError.typeError ∧
    createSnare true time false = JSResult.thrown JSError.typeError ∧
    createHiHat false time true = JSResult.thrown JSError.typeError ∧
    createHiHat true time false = JSResult.thrown JSError.typeError ∧
    createChord false time true detune = JSResult.thrown JSError.typeError ∧
    createChord true time false detune = JSResult.thrown JSError.typeError ∧
    (∃ ops, createKick true time true = JSResult.ok ops) ∧
    ∃ ops, createChord true time true detune = JSResult.ok ops :=
  ⟨rfl, rfl, rfl, rfl, rfl, rfl, rfl, rfl, ⟨_, rfl⟩, ⟨_, rfl⟩⟩

end LofiSeq
